import Mathlib

/-!
Verification of the claude-bridge core: a shallow embedding of the stream
translator (anthropic/streaming.py), the non-streaming aggregator
(anthropic/adapter.py) and the process-orchestrator command builder and
exit classification (core/cli_wrapper.py), with theorems settling the
frozen specification claims.

Decoded CLI records are JSON objects read through dict.get with defaults;
they are embedded as a structure of optional fields, one per key the code
reads, so that a missing key is `none` and each `d.get(k, default)` in the
source becomes `field.getD default`.
-/

namespace ClaudeBridge

/-- Usage object as read by the code: usage.get("input_tokens", d) and
usage.get("output_tokens", d). -/
structure UsageData where
  input_tokens : Option Int
  output_tokens : Option Int
deriving DecidableEq, Repr

/-- Content-block payload forwarded in a content_block_start event; the
default used by the code is type "text" with empty text. -/
structure CBInfo where
  type_ : String
  text : String
deriving DecidableEq, Repr

/-- Delta payload of an inner content_block_delta event; the code reads
delta.get("text", ""). -/
structure DeltaInfo where
  text : Option String
deriving DecidableEq, Repr

/-- One block of a legacy assistant message content array; the code reads
block.get("type") (no default, i.e. None when missing) and
block.get("text", ""). -/
structure ContentItem where
  type_ : Option String
  text : Option String
deriving DecidableEq, Repr

/-- Inner event of a stream_event record; the code reads event.get("type",
""), event.get("index", 0), event.get("content_block", default),
event.get("delta", default) and event.get("usage", default). -/
structure InnerEvent where
  type_ : Option String
  index : Option Int
  content_block : Option CBInfo
  delta : Option DeltaInfo
  usage : Option UsageData
deriving DecidableEq, Repr

/-- Legacy assistant record message; the code reads message.get("content",
[]) and checks "usage" in message. -/
structure AssistantMessage where
  content : Option (List ContentItem)
  usage : Option UsageData
deriving DecidableEq, Repr

/-- A decoded JSON-object record from one line of CLI output, holding every
key any of the embedded components reads: the translator reads type_,
event, message and usage; the aggregator and the exit classifier read
is_error, result and usage. -/
structure DecodedRecord where
  type_ : Option String
  event : Option InnerEvent
  message : Option AssistantMessage
  usage : Option UsageData
  is_error : Option Bool
  result : Option String
deriving DecidableEq, Repr

/-- The all-absent inner event, the value of event.get("event", \x7b\x7d). -/
def emptyInnerEvent : InnerEvent :=
  { type_ := none, index := none, content_block := none, delta := none, usage := none }

/-- The all-absent usage object, the value of x.get("usage", \x7b\x7d). -/
def emptyUsage : UsageData := { input_tokens := none, output_tokens := none }

/-- The all-absent assistant message, the value of chunk.get("message", \x7b\x7d). -/
def emptyMessage : AssistantMessage := { content := none, usage := none }

/-- The default content-block payload \x7b type: text, text: empty \x7d. -/
def defaultCB : CBInfo := { type_ := "text", text := "" }

/-- Whitespace-token estimate used by the translator: len(text.split()),
i.e. the number of maximal non-empty whitespace-separated fragments. -/
def countTokens (s : String) : Nat :=
  go false s.data
where
  go : Bool → List Char → Nat
    | _, [] => 0
    | inWord, c :: rest =>
      if c.isWhitespace then go false rest
      else (if inWord then 0 else 1) + go true rest

/-- Python str.strip(): drop whitespace from both ends. -/
def pyStrip (s : String) : String :=
  String.mk (((s.data.dropWhile Char.isWhitespace).reverse.dropWhile Char.isWhitespace).reverse)

/-- One normalized SSE output event of the translator, abstracting a pair
of event/data lines of the wire format. message_start carries the session
id and model (its usage is the fixed zero pair); message_delta carries the
final output-token count (its stop_reason is the fixed end_turn). -/
inductive SSEEvent where
  | message_start (id : String) (model : String)
  | content_block_start (index : Int) (content_block : CBInfo)
  | content_block_delta (index : Int) (text : String)
  | content_block_stop (index : Int)
  | message_delta (output_tokens : Int)
  | message_stop
deriving DecidableEq, Repr

/-- Mutable per-session translator state: message id is fixed at start,
content_index stays 0, content_started records whether a
content_block_start has been emitted, and the token counters. -/
structure StreamState where
  content_index : Int
  content_started : Bool
  input_tokens : Int
  output_tokens : Int
deriving DecidableEq, Repr

/-- Initial translator state. -/
def initStreamState : StreamState :=
  { content_index := 0, content_started := false, input_tokens := 0, output_tokens := 0 }

/-- Process the legacy content array of an assistant record: for each block
of type "text" with non-empty text, add the whitespace-token estimate and
emit a content_block_delta at the current index. -/
def processContent (st : StreamState) : List ContentItem → StreamState × List SSEEvent
  | [] => (st, [])
  | block :: rest =>
    let step :=
      if block.type_ = some "text" then
        let text := block.text.getD ""
        if text ≠ "" then
          ({ st with output_tokens := st.output_tokens + (countTokens text : Int) },
           [SSEEvent.content_block_delta st.content_index text])
        else (st, ([] : List SSEEvent))
      else (st, ([] : List SSEEvent))
    ((processContent step.1 rest).1, step.2 ++ (processContent step.1 rest).2)

/-- Process one decoded record, mirroring the body of the read loop of
stream_anthropic_response (streaming.py lines 77-184). -/
def processChunk (st : StreamState) (chunk : DecodedRecord) : StreamState × List SSEEvent :=
  let chunkType := chunk.type_.getD ""
  if chunkType = "stream_event" then
    let event := chunk.event.getD emptyInnerEvent
    let eventType := event.type_.getD ""
    if eventType = "message_start" then
      -- already sent in the synthesized initial message_start
      (st, [])
    else if eventType = "content_block_start" then
      if !st.content_started then
        ({ st with content_started := true },
         [SSEEvent.content_block_start (event.index.getD 0) (event.content_block.getD defaultCB)])
      else (st, [])
    else if eventType = "content_block_delta" then
      let opened :=
        if !st.content_started then
          ({ st with content_started := true },
           [SSEEvent.content_block_start st.content_index defaultCB])
        else (st, ([] : List SSEEvent))
      let delta := (event.delta.getD { text := none })
      let text := delta.text.getD ""
      if text ≠ "" then
        ({ opened.1 with output_tokens := opened.1.output_tokens + (countTokens text : Int) },
         opened.2 ++ [SSEEvent.content_block_delta opened.1.content_index text])
      else opened
    else if eventType = "content_block_stop" then
      -- deferred: the translator emits its own stop at end of stream
      (st, [])
    else if eventType = "message_delta" then
      let usageData := event.usage.getD emptyUsage
      ({ st with
          input_tokens := usageData.input_tokens.getD st.input_tokens,
          output_tokens := usageData.output_tokens.getD st.output_tokens }, [])
    else (st, [])
  else if chunkType = "assistant" then
    let message := chunk.message.getD emptyMessage
    let content := message.content.getD []
    let opened :=
      if !st.content_started && !content.isEmpty then
        ({ st with content_started := true },
         [SSEEvent.content_block_start st.content_index defaultCB])
      else (st, ([] : List SSEEvent))
    let walked := processContent opened.1 content
    let st3 :=
      match message.usage with
      | some usage =>
        { walked.1 with
            input_tokens := usage.input_tokens.getD walked.1.input_tokens,
            output_tokens := usage.output_tokens.getD walked.1.output_tokens }
      | none => walked.1
    (st3, opened.2 ++ walked.2)
  else if chunkType = "result" then
    match chunk.usage with
    | some usage =>
      ({ st with
          input_tokens := usage.input_tokens.getD st.input_tokens,
          output_tokens := usage.output_tokens.getD st.output_tokens }, [])
    | none => (st, [])
  else (st, [])

/-- Run the translator read loop over a finite record sequence, threading
the state and concatenating the emitted events. -/
def runChunks (st : StreamState) : List DecodedRecord → StreamState × List SSEEvent
  | [] => (st, [])
  | c :: rest =>
    ((runChunks (processChunk st c).1 rest).1,
      (processChunk st c).2 ++ (runChunks (processChunk st c).1 rest).2)

/-- The full translator on a finite record sequence consumed without the
upstream iterator raising (streaming.py lines 59-204): synthesized
message_start first, then the per-record events, then content_block_stop
when a block was started, then message_delta with the final output-token
count, then message_stop. The session id (in the source msg_ plus a random
24-hex token) is a parameter. -/
def stream_anthropic_response (message_id model : String)
    (records : List DecodedRecord) : List SSEEvent :=
  let run := runChunks initStreamState records
  SSEEvent.message_start message_id model ::
    (run.2 ++
      ((if run.1.content_started then [SSEEvent.content_block_stop run.1.content_index] else []) ++
        [SSEEvent.message_delta run.1.output_tokens, SSEEvent.message_stop]))

/-- Event-kind classifiers for the ordering claims. -/
def isMessageStart : SSEEvent → Bool
  | SSEEvent.message_start _ _ => true
  | _ => false

def isMessageStop : SSEEvent → Bool
  | SSEEvent.message_stop => true
  | _ => false

def isContentBlockStart : SSEEvent → Bool
  | SSEEvent.content_block_start _ _ => true
  | _ => false

def isContentBlockDelta : SSEEvent → Bool
  | SSEEvent.content_block_delta _ _ => true
  | _ => false

def isContentBlockStop : SSEEvent → Bool
  | SSEEvent.content_block_stop _ => true
  | _ => false

def isMessageDelta : SSEEvent → Bool
  | SSEEvent.message_delta _ => true
  | _ => false

/-- Texts carried by the content_block_delta events of an output sequence. -/
def deltaTexts : List SSEEvent → List String
  | [] => []
  | SSEEvent.content_block_delta _ t :: rest => t :: deltaTexts rest
  | _ :: rest => deltaTexts rest

/-- Well-formedness of the event block emitted by the read loop, tracking
the content_started flag: only content_block_start and content_block_delta
events occur, a start only while the flag is unset (setting it), a delta
only while it is set. -/
def bodyWF (started : Bool) : List SSEEvent → Bool
  | [] => true
  | SSEEvent.content_block_start _ _ :: rest => !started && bodyWF true rest
  | SSEEvent.content_block_delta _ _ :: rest => started && bodyWF started rest
  | _ :: _ => false

/-- The content_started flag after emitting a block of events from flag
state s: set exactly when a content_block_start was emitted. -/
def startedAfter (s : Bool) (l : List SSEEvent) : Bool :=
  s || l.any isContentBlockStart

/-- A decoded record in the real-time grammar carrying delta text t: a
stream_event wrapping an inner content_block_delta whose delta holds t. -/
def rtDeltaRecord (t : String) : DecodedRecord :=
  { type_ := some "stream_event",
    event := some { emptyInnerEvent with
      type_ := some "content_block_delta", delta := some { text := some t } },
    message := none, usage := none, is_error := none, result := none }

/-- A decoded record in the legacy grammar carrying text t: an assistant
record whose message content array holds one text block with text t. -/
def legacyTextRecord (t : String) : DecodedRecord :=
  { type_ := some "assistant",
    event := none,
    message := some { content := some [{ type_ := some "text", text := some t }], usage := none },
    usage := none, is_error := none, result := none }

/-- A legacy assistant record with an arbitrary content array. -/
def assistantRecord (content : List ContentItem) : DecodedRecord :=
  { type_ := some "assistant", event := none,
    message := some { content := some content, usage := none },
    usage := none, is_error := none, result := none }

/-- A stream_event record wrapping an inner message_delta with a usage
object. -/
def messageDeltaRecord (u : UsageData) : DecodedRecord :=
  { type_ := some "stream_event",
    event := some { emptyInnerEvent with type_ := some "message_delta", usage := some u },
    message := none, usage := none, is_error := none, result := none }

/-- A terminal result record with a usage object and optional error flag
and result text. -/
def resultRecord (u : Option UsageData) (err : Option Bool) (res : Option String) :
    DecodedRecord :=
  { type_ := some "result", event := none, message := none,
    usage := u, is_error := err, result := res }

/-! ### Non-streaming aggregator (adapter.py, cli_response_to_anthropic) -/

/-- The non-streaming response object; content is the single text block
ContentBlock(type "text", text content_text). -/
structure MessagesResponse where
  id : String
  type_ : String
  role : String
  content_text : String
  model : String
  stop_reason : String
  input_tokens : Int
  output_tokens : Int
deriving DecidableEq, Repr

/-- The aggregation loop of cli_response_to_anthropic (adapter.py lines
291-307): a record with a truthy is_error flag raises at once; otherwise
the last record with a result field wins the text and the last record with
a usage object wins the token counts (each read with default 0). -/
def aggregateRecords (text : String) (inT outT : Int) :
    List DecodedRecord → Except String (String × Int × Int)
  | [] => Except.ok (text, inT, outT)
  | r :: rest =>
    if r.is_error.getD false then
      Except.error ("Claude CLI error: " ++ r.result.getD "Unknown CLI error")
    else
      let text2 := match r.result with | some s => s | none => text
      let toks :=
        match r.usage with
        | some u => (u.input_tokens.getD 0, u.output_tokens.getD 0)
        | none => (inT, outT)
      aggregateRecords text2 toks.1 toks.2 rest

/-- cli_response_to_anthropic (adapter.py lines 262-333) on a finite
decoded-record sequence. The freshly generated message identifier is
msg_ plus a 24-hex token; the random token is a parameter. -/
def cli_response_to_anthropic (model hex : String) (records : List DecodedRecord) :
    Except String MessagesResponse :=
  (aggregateRecords "" 0 0 records).map fun acc =>
    { id := "msg_" ++ hex,
      type_ := "message",
      role := "assistant",
      content_text := acc.1,
      model := model,
      stop_reason := "end_turn",
      input_tokens := acc.2.1,
      output_tokens := acc.2.2 }

/-! ### Command builder and pre-spawn validation (cli_wrapper.py query,
lines 62-175) -/

/-- The configuration strings the builder reads from settings. -/
structure QuerySettings where
  claude_allowed_tools_str : String
  claude_allowed_directories_str : String
  claude_disallowed_tools_str : String
deriving DecidableEq, Repr

/-- Python s.split(","): cut the string at every comma; the empty string
splits to one empty piece. -/
def splitComma (s : String) : List String :=
  go [] s.data
where
  go : List Char → List Char → List String
    | acc, [] => [String.mk acc.reverse]
    | acc, c :: rest =>
      if c = ',' then String.mk acc.reverse :: go [] rest
      else go (c :: acc) rest

/-- Python list comprehension t.strip() for t in s.split(",") if t.strip():
split on commas, strip each piece, keep the non-empty ones. -/
def splitCommaTrim (s : String) : List String :=
  ((splitComma s).map pyStrip).filter (fun t => t ≠ "")

/-- Build the argument vector and stdin payload of query (cli_wrapper.py
lines 62-155), up to but not including the subprocess spawn. A
configuration error (file attachments present with a blank tool allow-list
or blank directory allow-list) is the error case; the source raises
ValueError there, before asyncio.create_subprocess_exec at line 169. -/
def buildCommand (settings : QuerySettings) (cli_path prompt : String)
    (system_prompt model : Option String)
    (allowed_tools disallowed_tools : Option (List String))
    (stream : Bool) (file_paths : List String) :
    Except String (List String × String) :=
  let cmd := [cli_path, "--print", "--permission-mode", "bypassPermissions"]
  let cmd := cmd ++
    (if stream then
      ["--verbose", "--output-format", "stream-json", "--include-partial-messages"]
    else ["--output-format", "json"])
  let cmd := cmd ++ (if model.getD "" ≠ "" then ["--model", model.getD ""] else [])
  let cmd := cmd ++
    (if system_prompt.getD "" ≠ "" then
      ["--append-system-prompt", system_prompt.getD ""]
    else [])
  if file_paths ≠ [] then
    if pyStrip settings.claude_allowed_tools_str = "" then
      Except.error ("File upload attempted but CLAUDE_ALLOWED_TOOLS_STR not configured. " ++
        "Set CLAUDE_ALLOWED_TOOLS_STR=Read in your .env file to enable file upload.")
    else if pyStrip settings.claude_allowed_directories_str = "" then
      Except.error ("File upload attempted but CLAUDE_ALLOWED_DIRECTORIES_STR not configured. " ++
        "Set CLAUDE_ALLOWED_DIRECTORIES_STR=/tmp (or your temp directory) in your .env file.")
    else
      let allowed_tools_list := splitCommaTrim settings.claude_allowed_tools_str
      let cmd := cmd ++ ["--allowed-tools", String.intercalate " " allowed_tools_list]
      let allowed_dirs := splitCommaTrim settings.claude_allowed_directories_str
      let cmd := cmd ++ allowed_dirs.flatMap (fun d => ["--add-dir", d])
      Except.ok (finishCommand settings cmd disallowed_tools prompt file_paths)
  else
    let cmd := cmd ++
      (match allowed_tools with
       | some ts => if ts ≠ [] then ["--allowed-tools", String.intercalate " " ts] else []
       | none => [])
    Except.ok (finishCommand settings cmd disallowed_tools prompt file_paths)
where
  /-- Shared tail of the builder: merge the disallowed-tool sources
  (lines 127-136) and build the enhanced prompt with file-reference
  instructions (lines 140-148). File paths are modeled as their absolute
  path strings. -/
  finishCommand (settings : QuerySettings) (cmd : List String)
      (disallowed_tools : Option (List String)) (prompt : String)
      (file_paths : List String) : List String × String :=
    let disallowed_list :=
      (if pyStrip settings.claude_disallowed_tools_str ≠ "" then
        splitCommaTrim settings.claude_disallowed_tools_str
      else []) ++ disallowed_tools.getD []
    let cmd := cmd ++
      (if disallowed_list ≠ [] then
        ["--disallowed-tools", String.intercalate " " disallowed_list]
      else [])
    let enhanced_prompt :=
      if file_paths ≠ [] then
        String.intercalate "\n\n"
          (file_paths.map
            (fun p => "Please use your Read tool to analyze this file: " ++ p)) ++
          "\n\n" ++ prompt
      else prompt
    (cmd, enhanced_prompt)

/-- Whether query reaches asyncio.create_subprocess_exec (line 169): the
spawn happens only after the builder phase finishes without raising, so it
occurs exactly when buildCommand succeeds. -/
def querySpawnsProcess (settings : QuerySettings) (cli_path prompt : String)
    (system_prompt model : Option String)
    (allowed_tools disallowed_tools : Option (List String))
    (stream : Bool) (file_paths : List String) : Bool :=
  match buildCommand settings cli_path prompt system_prompt model
      allowed_tools disallowed_tools stream file_paths with
  | Except.ok _ => true
  | Except.error _ => false

/-! ### Non-streaming exit classification (cli_wrapper.py lines 250-282) -/

/-- The stdout of a failed invocation as the classifier sees it: empty
bytes, text that parses as a JSON object, or text that does not parse. In
the source the raw text of a parsed JSON stdout is never used again. -/
inductive StdoutData where
  | empty
  | jsonText (raw : String) (record : DecodedRecord)
  | rawText (raw : String)
deriving Repr

/-- Error-message extraction on non-zero exit (lines 254-272): a parsed
JSON stdout with a truthy is_error flag contributes its embedded result
message; non-JSON stdout contributes its trimmed text; when the candidate
is still falsy (absent or empty) and stderr is non-empty, the trimmed
stderr is used; when still falsy, the generic exit-code message. The falsy
None and empty-string candidates behave identically and are both modeled
by the empty string. -/
def extract_error_msg (returncode : Int) (stdoutData : StdoutData) (stderr_msg : String) :
    String :=
  let m1 :=
    match stdoutData with
    | StdoutData.empty => ""
    | StdoutData.jsonText _ record =>
      if record.is_error.getD false then record.result.getD "Unknown CLI error" else ""
    | StdoutData.rawText raw => pyStrip raw
  let m2 := if m1 = "" && stderr_msg ≠ "" then pyStrip stderr_msg else m1
  if m2 = "" then "Command failed with exit code " ++ toString returncode else m2

/-- The RuntimeError message raised on non-zero exit (line 282). -/
def nonStreamingExitFailure (returncode : Int) (stdoutData : StdoutData)
    (stderr_msg : String) : String :=
  "Claude CLI failed (exit " ++ toString returncode ++ "): " ++
    extract_error_msg returncode stdoutData stderr_msg

/-! ### Streaming read loop with idle timer (cli_wrapper.py lines 209-227) -/

/-- One line event of a timed stdout trace: a whitespace-only line (strip
falsy), a line parsing to a JSON record, or a non-blank unparsable line
(reset, logged, and the loop continues to the next line). -/
inductive RawLine where
  | blank
  | parsed (r : DecodedRecord)
  | noise
deriving Repr

/-- The streaming read loop on a timed trace: each entry is (gap, line)
meaning the line arrives gap time units after the previous event; the loop
suspends in readline until it arrives. Mirrors lines 209-227: a line with
truthy strip resets last_line_time at time of arrival and is yielded when
it parses (an unparsable line continues the loop directly, skipping the
idle check); after a yielded or blank line the idle check compares the
current time against last_line_time and on excess terminates the process
and breaks. Returns the yielded records in order and whether the loop
terminated the process. -/
def streamReadLoop (idle_timeout : Int) (now last_line_time : Int) :
    List (Int × RawLine) → List DecodedRecord × Bool
  | [] => ([], false)
  | (gap, line) :: rest =>
    let t := now + gap
    match line with
    | RawLine.blank =>
      if t - last_line_time > idle_timeout then ([], true)
      else streamReadLoop idle_timeout t last_line_time rest
    | RawLine.parsed r =>
      if t - t > idle_timeout then ([r], true)
      else
        (r :: (streamReadLoop idle_timeout t t rest).1,
          (streamReadLoop idle_timeout t t rest).2)
    | RawLine.noise => streamReadLoop idle_timeout t t rest

/-! ### Temp-file cleanup on stream finalization (streaming.py lines
218-229) -/

/-- File-system state for the cleanup model: the existing files and the
files whose unlink raises an OSError. -/
structure FsState where
  existing : List String
  failing : List String
deriving Repr

/-- Path.unlink(missing_ok True): removing an absent file succeeds and
changes nothing; a failing file raises. -/
def unlinkMissingOk (fs : FsState) (f : String) : Except String FsState :=
  if f ∈ fs.failing then Except.error f
  else Except.ok { fs with existing := fs.existing.filter (fun g => g ≠ f) }

/-- The loop of the finally block over the temp files: each unlink is
wrapped in its own try/except, so a deletion failure is logged and the
loop continues with the next file; nothing is re-raised. -/
def cleanupLoop (fs : FsState) : List String → FsState
  | [] => fs
  | f :: rest =>
    match unlinkMissingOk fs f with
    | Except.ok fs2 => cleanupLoop fs2 rest
    | Except.error _ => cleanupLoop fs rest

/-- The finally block (lines 218-229): when the temp-file list is
non-empty, run the cleanup loop. -/
def cleanupTempFiles (temp_files : List String) (fs : FsState) : FsState :=
  if temp_files ≠ [] then cleanupLoop fs temp_files else fs

/-- How one streaming session ends: the upstream iterator is exhausted
normally, it raises after some prefix of events was emitted, or the
consumer closes the generator early after some prefix. -/
inductive StreamExit where
  | completed
  | upstreamRaised (emitted : Nat)
  | closedEarly (emitted : Nat)
deriving Repr

/-- One whole streaming session: the translator body runs inside
try/finally, so whichever way the generator terminates -- normal
completion, an exception from the upstream iterator, or early close of the
generator -- the finally block runs cleanupTempFiles. The emitted events
are the full translated sequence on normal completion and a prefix of it
on the other exits. -/
def streamSessionRun (message_id model : String) (records : List DecodedRecord)
    (exitPath : StreamExit) (temp_files : List String) (fs : FsState) :
    List SSEEvent × FsState :=
  let events :=
    match exitPath with
    | StreamExit.completed => stream_anthropic_response message_id model records
    | StreamExit.upstreamRaised k => (stream_anthropic_response message_id model records).take k
    | StreamExit.closedEarly k => (stream_anthropic_response message_id model records).take k
  (events, cleanupTempFiles temp_files fs)

/-! ## Structural lemmas about the translator -/

theorem processContent_spec (blocks : List ContentItem) (st : StreamState) :
    (processContent st blocks).1.content_started = st.content_started ∧
    (processContent st blocks).1.content_index = st.content_index ∧
    ∀ e ∈ (processContent st blocks).2, isContentBlockDelta e = true := by
  induction blocks generalizing st with
  | nil => simp [processContent]
  | cons b rest ih =>
    by_cases h1 : b.type_ = some "text"
    · by_cases h2 : b.text.getD "" = ""
      · obtain ⟨ha, hb, hc⟩ := ih st
        simp only [processContent, h1, h2, if_pos, ne_eq, not_true_eq_false, if_false]
        simp_all [isContentBlockDelta]
      · obtain ⟨ha, hb, hc⟩ :=
          ih { st with output_tokens := st.output_tokens + (countTokens (b.text.getD "") : Int) }
        simp only [processContent, h1, if_pos, ne_eq, h2, not_false_eq_true, if_true]
        simp_all [isContentBlockDelta]
    · obtain ⟨ha, hb, hc⟩ := ih st
      simp only [processContent, h1, if_neg, not_false_eq_true]
      simp_all


theorem bodyWF_true_all_delta :
    ∀ l : List SSEEvent, bodyWF true l = true → ∀ e ∈ l, isContentBlockDelta e = true := by
  intro l
  induction l with
  | nil => simp
  | cons e rest ih =>
    intro h f hf
    cases e <;> simp [bodyWF] at h
    cases hf with
    | head => rfl
    | tail _ hf2 => exact ih h f hf2

theorem all_delta_bodyWF :
    ∀ l : List SSEEvent, (∀ e ∈ l, isContentBlockDelta e = true) → bodyWF true l = true := by
  intro l
  induction l with
  | nil => simp [bodyWF]
  | cons e rest ih =>
    intro h
    have he := h e (by simp)
    cases e <;> simp [isContentBlockDelta] at he
    simp only [bodyWF, Bool.true_and]
    exact ih (fun f hf => h f (by simp [hf]))

theorem bodyWF_append :
    ∀ (l₁ : List SSEEvent) (s : Bool) (l₂ : List SSEEvent), bodyWF s l₁ = true →
      bodyWF (startedAfter s l₁) l₂ = true → bodyWF s (l₁ ++ l₂) = true := by
  intro l₁
  induction l₁ with
  | nil =>
    intro s l₂ _ h2
    simpa [startedAfter] using h2
  | cons e rest ih =>
    intro s l₂ h1 h2
    cases e <;> simp [bodyWF] at h1 ⊢
    · obtain ⟨hs, hr⟩ := h1
      refine ⟨hs, ih true l₂ hr ?_⟩
      simpa [startedAfter, isContentBlockStart] using h2
    · obtain ⟨hs, hr⟩ := h1
      refine ⟨hs, ih s l₂ hr ?_⟩
      simpa [startedAfter, isContentBlockStart] using h2

theorem bodyWF_false_shape (l : List SSEEvent) (h : bodyWF false l = true) :
    l = [] ∨ ∃ i cb ds, l = SSEEvent.content_block_start i cb :: ds ∧
      ∀ e ∈ ds, isContentBlockDelta e = true := by
  cases l with
  | nil => exact Or.inl rfl
  | cons e rest =>
    refine Or.inr ?_
    cases e <;> simp [bodyWF] at h
    exact ⟨_, _, rest, rfl, bodyWF_true_all_delta rest h⟩

theorem processChunk_spec (st : StreamState) (c : DecodedRecord) :
    bodyWF st.content_started (processChunk st c).2 = true ∧
    (processChunk st c).1.content_started =
      startedAfter st.content_started (processChunk st c).2 ∧
    (processChunk st c).1.content_index = st.content_index := by
  unfold processChunk
  by_cases hT : c.type_.getD "" = "stream_event"
  · simp only [hT, if_true, reduceIte]
    by_cases h1 : (c.event.getD emptyInnerEvent).type_.getD "" = "message_start"
    · simp [h1, bodyWF, startedAfter]
    by_cases h2 : (c.event.getD emptyInnerEvent).type_.getD "" = "content_block_start"
    · cases hs : st.content_started <;>
        simp [h1, h2, hs, bodyWF, startedAfter, isContentBlockStart]
    by_cases h3 : (c.event.getD emptyInnerEvent).type_.getD "" = "content_block_delta"
    · by_cases ht :
        (((c.event.getD emptyInnerEvent).delta.getD { text := none }).text.getD "") = ""
      · cases hs : st.content_started <;>
          simp [h1, h2, h3, ht, hs, bodyWF, startedAfter, isContentBlockStart]
      · cases hs : st.content_started <;>
          simp [h1, h2, h3, ht, hs, bodyWF, startedAfter, isContentBlockStart,
            isContentBlockDelta]
    by_cases h4 : (c.event.getD emptyInnerEvent).type_.getD "" = "content_block_stop"
    · simp [h1, h2, h3, h4, bodyWF, startedAfter]
    by_cases h5 : (c.event.getD emptyInnerEvent).type_.getD "" = "message_delta"
    · simp [h1, h2, h3, h4, h5, bodyWF, startedAfter]
    · simp [h1, h2, h3, h4, h5, bodyWF, startedAfter]
  · simp only [hT, if_false, reduceIte]
    by_cases hA : c.type_.getD "" = "assistant"
    · simp only [hA, if_true, reduceIte]
      by_cases hs : st.content_started
      · obtain ⟨ha, hb, hc⟩ :=
          processContent_spec ((c.message.getD emptyMessage).content.getD []) st
        have hwf : bodyWF true
            (processContent st ((c.message.getD emptyMessage).content.getD [])).2 = true :=
          all_delta_bodyWF _ hc
        cases hu : (c.message.getD emptyMessage).usage <;>
          simp [hs, hu, hwf, ha, hb, startedAfter]
      · by_cases hE : ((c.message.getD emptyMessage).content.getD []).isEmpty
        · have hnil : ((c.message.getD emptyMessage).content.getD []) = [] :=
            List.isEmpty_iff.mp hE
          cases hu : (c.message.getD emptyMessage).usage <;>
            simp [hs, hnil, hu, processContent, bodyWF, startedAfter]
        · obtain ⟨ha, hb, hc⟩ :=
            processContent_spec ((c.message.getD emptyMessage).content.getD [])
              { st with content_started := true }
          have hwf : bodyWF true
              (processContent { st with content_started := true }
                ((c.message.getD emptyMessage).content.getD [])).2 = true :=
            all_delta_bodyWF _ hc
          cases hu : (c.message.getD emptyMessage).usage <;>
            simp [hs, hE, hu, bodyWF, startedAfter, isContentBlockStart, hwf, ha, hb]
    · by_cases hR : c.type_.getD "" = "result"
      · simp only [hA, hR, if_true, if_false, reduceIte]
        cases huu : c.usage <;> simp [bodyWF, startedAfter]
      · simp [hA, hR, bodyWF, startedAfter]

theorem runChunks_spec :
    ∀ (records : List DecodedRecord) (st : StreamState),
      bodyWF st.content_started (runChunks st records).2 = true ∧
      (runChunks st records).1.content_started =
        startedAfter st.content_started (runChunks st records).2 ∧
      (runChunks st records).1.content_index = st.content_index := by
  intro records
  induction records with
  | nil => intro st; simp [runChunks, startedAfter, bodyWF]
  | cons c rest ih =>
    intro st
    obtain ⟨h1, h2, h3⟩ := processChunk_spec st c
    obtain ⟨h4, h5, h6⟩ := ih (processChunk st c).1
    refine ⟨?_, ?_, ?_⟩
    · exact bodyWF_append _ _ _ h1 (by rw [← h2]; exact h4)
    · show (runChunks (processChunk st c).1 rest).1.content_started = _
      rw [h5, h2]
      simp [runChunks, startedAfter, List.any_append, Bool.or_assoc]
    · show (runChunks (processChunk st c).1 rest).1.content_index = _
      rw [h6, h3]

theorem runChunks_append (st : StreamState) (l₁ l₂ : List DecodedRecord) :
    runChunks st (l₁ ++ l₂) =
      ((runChunks (runChunks st l₁).1 l₂).1,
        (runChunks st l₁).2 ++ (runChunks (runChunks st l₁).1 l₂).2) := by
  induction l₁ generalizing st with
  | nil => simp [runChunks]
  | cons c rest ih => simp [runChunks, ih]

/-! ## Generic list-position lemmas -/

theorem mem_of_splitEq {α : Type} {l l₁ l₂ : List α} {e : α} (h : l = l₁ ++ e :: l₂) :
    e ∈ l := by
  subst h; simp

theorem one_marker_before {α : Type} (p q : α → Bool) :
    ∀ (C : List α) (s : α) (D : List α), (∀ e ∈ C, p e = false) → q s = true →
      p s = false → ∀ l₁ e l₂, C ++ s :: D = l₁ ++ e :: l₂ → p e = true →
      1 ≤ l₁.countP q := by
  intro C
  induction C with
  | nil =>
    intro s D _ hq hps l₁ e l₂ heq hpe
    cases l₁ with
    | nil =>
      simp only [List.nil_append, List.cons.injEq] at heq
      obtain ⟨hse, -⟩ := heq
      subst hse
      rw [hps] at hpe
      exact absurd hpe (by simp)
    | cons x l₁t =>
      simp only [List.nil_append, List.cons_append, List.cons.injEq] at heq
      obtain ⟨hsx, -⟩ := heq
      subst hsx
      simp [List.countP_cons, hq]
  | cons c Ct ih =>
    intro s D hC hq hps l₁ e l₂ heq hpe
    cases l₁ with
    | nil =>
      simp only [List.cons_append, List.nil_append, List.cons.injEq] at heq
      obtain ⟨hce, -⟩ := heq
      have := hC c (by simp)
      rw [hce] at this
      rw [this] at hpe
      exact absurd hpe (by simp)
    | cons x l₁t =>
      simp only [List.cons_append, List.cons.injEq] at heq
      have := ih s D (fun f hf => hC f (by simp [hf])) hq hps l₁t e l₂ heq.2 hpe
      rw [List.countP_cons]
      omega

theorem none_p_after_marker {α : Type} (p q : α → Bool) :
    ∀ (A : List α) (s : α) (B : List α), (∀ e ∈ A, q e = false) →
      (∀ e ∈ B, q e = false ∧ p e = false) →
      ∀ l₁ e l₂, A ++ s :: B = l₁ ++ e :: l₂ → q e = true →
      l₂.countP p = 0 := by
  intro A
  induction A with
  | nil =>
    intro s B _ hB l₁ e l₂ heq hqe
    cases l₁ with
    | nil =>
      simp only [List.nil_append, List.cons.injEq] at heq
      obtain ⟨-, hBl⟩ := heq
      rw [← hBl]
      exact List.countP_eq_zero.mpr (fun f hf => by simp [(hB f hf).2])
    | cons x l₁t =>
      simp only [List.nil_append, List.cons_append, List.cons.injEq] at heq
      have he : e ∈ B := by rw [heq.2]; exact mem_of_splitEq rfl
      rw [(hB e he).1] at hqe
      exact absurd hqe (by simp)
  | cons a At ih =>
    intro s B hA hB l₁ e l₂ heq hqe
    cases l₁ with
    | nil =>
      simp only [List.cons_append, List.nil_append, List.cons.injEq] at heq
      obtain ⟨hae, -⟩ := heq
      have := hA a (by simp)
      rw [hae] at this
      rw [this] at hqe
      exact absurd hqe (by simp)
    | cons x l₁t =>
      simp only [List.cons_append, List.cons.injEq] at heq
      exact ih s B (fun f hf => hA f (by simp [hf])) hB l₁t e l₂ heq.2 hqe

theorem delta_not_others {e : SSEEvent} (h : isContentBlockDelta e = true) :
    isMessageStart e = false ∧ isMessageStop e = false ∧ isContentBlockStart e = false ∧
    isContentBlockStop e = false ∧ isMessageDelta e = false := by
  cases e <;>
    simp_all [isContentBlockDelta, isMessageStart, isMessageStop, isContentBlockStart,
      isContentBlockStop, isMessageDelta]

/-- C1: for every finite decoded-record sequence consumed without the
upstream iterator raising, the SSE event sequence of the stream translator
has a message_start first and exactly once, message_stop last and exactly
once, at most one content_block_start which precedes every
content_block_delta, every content_block_stop after all
content_block_delta events, and message_delta immediately before
message_stop. -/
theorem c1_sse_event_ordering (mid model : String) (records : List DecodedRecord) :
    (∃ rest, stream_anthropic_response mid model records =
        SSEEvent.message_start mid model :: rest ∧ rest.countP isMessageStart = 0) ∧
    (∃ front, stream_anthropic_response mid model records = front ++ [SSEEvent.message_stop] ∧
        front.countP isMessageStop = 0) ∧
    (stream_anthropic_response mid model records).countP isContentBlockStart ≤ 1 ∧
    (∀ l₁ e l₂, stream_anthropic_response mid model records = l₁ ++ e :: l₂ →
        isContentBlockDelta e = true → 1 ≤ l₁.countP isContentBlockStart) ∧
    (∀ l₁ e l₂, stream_anthropic_response mid model records = l₁ ++ e :: l₂ →
        isContentBlockStop e = true → l₂.countP isContentBlockDelta = 0) ∧
    (∃ front n, stream_anthropic_response mid model records =
        front ++ [SSEEvent.message_delta n, SSEEvent.message_stop]) := by
  obtain ⟨hwf, hst, hidx⟩ := runChunks_spec records initStreamState
  have hwf0 : bodyWF false (runChunks initStreamState records).2 = true := by
    simpa [initStreamState] using hwf
  have hidx0 : (runChunks initStreamState records).1.content_index = 0 := by
    simpa [initStreamState] using hidx
  rcases bodyWF_false_shape _ hwf0 with hnil | ⟨i, cb, ds, hds, hdelta⟩
  · have hnost : (runChunks initStreamState records).1.content_started = false := by
      rw [hst, hnil]
      simp [startedAfter, initStreamState]
    have hsse : stream_anthropic_response mid model records =
        [SSEEvent.message_start mid model,
         SSEEvent.message_delta (runChunks initStreamState records).1.output_tokens,
         SSEEvent.message_stop] := by
      simp only [stream_anthropic_response]
      rw [hnil, hnost]
      simp
    refine ⟨⟨_, hsse, ?_⟩, ⟨[SSEEvent.message_start mid model,
        SSEEvent.message_delta (runChunks initStreamState records).1.output_tokens],
        by rw [hsse]; rfl, ?_⟩, ?_, ?_, ?_, ⟨[SSEEvent.message_start mid model], _,
        by rw [hsse]; rfl⟩⟩
    · simp [List.countP_cons, isMessageStart]
    · simp [List.countP_cons, isMessageStop]
    · rw [hsse]
      simp [List.countP_cons, isContentBlockStart]
    · intro l₁ e l₂ heq hpe
      have hmem : e ∈ stream_anthropic_response mid model records := mem_of_splitEq heq
      rw [hsse] at hmem
      simp only [List.mem_cons, List.mem_singleton, List.not_mem_nil, or_false] at hmem
      rcases hmem with rfl | rfl | rfl <;> simp [isContentBlockDelta] at hpe
    · intro l₁ e l₂ heq hqe
      have hmem : e ∈ stream_anthropic_response mid model records := mem_of_splitEq heq
      rw [hsse] at hmem
      simp only [List.mem_cons, List.mem_singleton, List.not_mem_nil, or_false] at hmem
      rcases hmem with rfl | rfl | rfl <;> simp [isContentBlockStop] at hqe
  · have hyst : (runChunks initStreamState records).1.content_started = true := by
      rw [hst, hds]
      simp [startedAfter, isContentBlockStart]
    have hsse : stream_anthropic_response mid model records =
        SSEEvent.message_start mid model :: SSEEvent.content_block_start i cb ::
          (ds ++ [SSEEvent.content_block_stop 0,
            SSEEvent.message_delta (runChunks initStreamState records).1.output_tokens,
            SSEEvent.message_stop]) := by
      simp only [stream_anthropic_response]
      rw [hds, hyst, hidx0]
      simp
    have hdsMStart : ds.countP isMessageStart = 0 :=
      List.countP_eq_zero.mpr (fun e he => by simp [(delta_not_others (hdelta e he)).1])
    have hdsMStop : ds.countP isMessageStop = 0 :=
      List.countP_eq_zero.mpr (fun e he => by simp [(delta_not_others (hdelta e he)).2.1])
    have hdsCBStart : ds.countP isContentBlockStart = 0 :=
      List.countP_eq_zero.mpr (fun e he => by simp [(delta_not_others (hdelta e he)).2.2.1])
    refine ⟨⟨_, hsse, ?_⟩,
        ⟨SSEEvent.message_start mid model :: SSEEvent.content_block_start i cb ::
          (ds ++ [SSEEvent.content_block_stop 0,
            SSEEvent.message_delta (runChunks initStreamState records).1.output_tokens]),
          by rw [hsse]; simp, ?_⟩, ?_, ?_, ?_,
        ⟨SSEEvent.message_start mid model :: SSEEvent.content_block_start i cb ::
          (ds ++ [SSEEvent.content_block_stop 0]),
          (runChunks initStreamState records).1.output_tokens, by rw [hsse]; simp⟩⟩
    · simp [List.countP_cons, List.countP_append, isMessageStart, hdsMStart]
    · simp [List.countP_cons, List.countP_append, isMessageStop, hdsMStop]
    · rw [hsse]
      simp [List.countP_cons, List.countP_append, isContentBlockStart, hdsCBStart]
    · intro l₁ e l₂ heq hpe
      rw [hsse] at heq
      refine one_marker_before isContentBlockDelta isContentBlockStart
        [SSEEvent.message_start mid model] (SSEEvent.content_block_start i cb)
        (ds ++ [SSEEvent.content_block_stop 0,
          SSEEvent.message_delta (runChunks initStreamState records).1.output_tokens,
          SSEEvent.message_stop]) ?_ rfl rfl l₁ e l₂ (by simpa using heq) hpe
      intro f hf
      simp only [List.mem_singleton] at hf
      subst hf
      rfl
    · intro l₁ e l₂ heq hqe
      rw [hsse] at heq
      refine none_p_after_marker isContentBlockDelta isContentBlockStop
        (SSEEvent.message_start mid model :: SSEEvent.content_block_start i cb :: ds)
        (SSEEvent.content_block_stop 0)
        [SSEEvent.message_delta (runChunks initStreamState records).1.output_tokens,
          SSEEvent.message_stop] ?_ ?_ l₁ e l₂ (by simpa using heq) hqe
      · intro f hf
        simp only [List.mem_cons] at hf
        rcases hf with rfl | rfl | hf
        · rfl
        · rfl
        · exact (delta_not_others (hdelta f hf)).2.2.2.1
      · intro f hf
        simp only [List.mem_cons, List.mem_singleton, List.not_mem_nil, or_false] at hf
        rcases hf with rfl | rfl <;> exact ⟨rfl, rfl⟩

/-! ## Aggregator lemmas -/

theorem aggregateRecords_first_error :
    ∀ (pre : List DecodedRecord) (text : String) (inT outT : Int)
      (rec : DecodedRecord) (rest : List DecodedRecord),
      rec.is_error.getD false = true →
      (∀ r ∈ pre, r.is_error.getD false = false) →
      aggregateRecords text inT outT (pre ++ rec :: rest) =
        Except.error ("Claude CLI error: " ++ rec.result.getD "Unknown CLI error") := by
  intro pre
  induction pre with
  | nil =>
    intro text inT outT rec rest herr _
    simp [aggregateRecords, herr]
  | cons r pret ih =>
    intro text inT outT rec rest herr hclean
    have hr : r.is_error.getD false = false := hclean r (by simp)
    simp only [List.cons_append, aggregateRecords, hr, Bool.false_eq_true, if_false, reduceIte]
    exact ih _ _ _ rec rest herr (fun f hf => hclean f (by simp [hf]))

theorem aggregateRecords_last_usage :
    ∀ (l : List DecodedRecord) (text : String) (inT outT : Int) (u : UsageData) (a b : Int),
      u.input_tokens = some a → u.output_tokens = some b →
      (∀ r ∈ l, r.is_error.getD false = false) →
      ∃ txt, aggregateRecords text inT outT (l ++ [resultRecord (some u) none none]) =
        Except.ok (txt, a, b) := by
  intro l
  induction l with
  | nil =>
    intro text inT outT u a b h1 h2 _
    exact ⟨text, by simp [aggregateRecords, resultRecord, h1, h2]⟩
  | cons r lt ih =>
    intro text inT outT u a b h1 h2 hclean
    have hr : r.is_error.getD false = false := hclean r (by simp)
    simp only [List.cons_append, aggregateRecords, hr, Bool.false_eq_true, if_false, reduceIte]
    exact ih _ _ _ u a b h1 h2 (fun f hf => hclean f (by simp [hf]))

/-! ## Claim theorems -/

/-- C9: the non-streaming aggregator on zero decoded records does not
raise; it returns a response with empty text, zero input and output
tokens, the freshly generated msg_-prefixed identifier and the fixed
end_turn stop reason. -/
theorem c9_zero_records_empty_response (model hex : String) :
    cli_response_to_anthropic model hex [] =
      Except.ok
        { id := "msg_" ++ hex, type_ := "message", role := "assistant",
          content_text := "", model := model, stop_reason := "end_turn",
          input_tokens := 0, output_tokens := 0 } := by
  rfl

/-- C2 counterexample: a record sequence containing a record with the
is_error flag set is not aborted by the stream translator; it produces the
full clean event sequence, message_stop included, contradicting the claim
that no message_stop is emitted and the sequence is aborted at that
record. -/
theorem c2_counterexample_is_error_completes :
    stream_anthropic_response "id" "m"
      [resultRecord (some { input_tokens := some 5, output_tokens := some 10 }) (some true)
        (some "boom")] =
      [SSEEvent.message_start "id" "m", SSEEvent.message_delta 10, SSEEvent.message_stop] ∧
    (stream_anthropic_response "id" "m"
      [resultRecord (some { input_tokens := some 5, output_tokens := some 10 }) (some true)
        (some "boom")]).getLast? = some SSEEvent.message_stop := by
  exact ⟨by rfl, by rfl⟩

/-- C2 (amended): the stream translator never inspects the is_error flag;
every finite decoded-record sequence, including one containing is_error
records, yields the complete event sequence ending in message_stop. The
is_error flag aborts only the non-streaming aggregator, which raises with
the embedded message at the first flagged record. -/
theorem c2_amended_is_error_ignored_by_translator (mid model : String)
    (records : List DecodedRecord) :
    (∃ front, stream_anthropic_response mid model records =
      front ++ [SSEEvent.message_stop]) ∧
    (∀ (pre rest : List DecodedRecord) (rec : DecodedRecord) (model2 hex : String),
      rec.is_error.getD false = true →
      (∀ r ∈ pre, r.is_error.getD false = false) →
      cli_response_to_anthropic model2 hex (pre ++ rec :: rest) =
        Except.error ("Claude CLI error: " ++ rec.result.getD "Unknown CLI error")) := by
  constructor
  · refine ⟨SSEEvent.message_start mid model ::
      ((runChunks initStreamState records).2 ++
        ((if (runChunks initStreamState records).1.content_started then
            [SSEEvent.content_block_stop (runChunks initStreamState records).1.content_index]
          else []) ++
          [SSEEvent.message_delta (runChunks initStreamState records).1.output_tokens])), ?_⟩
    simp [stream_anthropic_response]
  · intro pre rest rec model2 hex herr hclean
    have h := aggregateRecords_first_error pre "" 0 0 rec rest herr hclean
    simp [cli_response_to_anthropic, h, Except.map]

/-- C2 witness: the amended theorem applied at one concrete flagged
record. -/
theorem c2_amended_witness :
    cli_response_to_anthropic "m" "h" [resultRecord none (some true) (some "boom")] =
      Except.error ("Claude CLI error: " ++ "boom") := by
  have h := (c2_amended_is_error_ignored_by_translator "id" "m" []).2
    [] [] (resultRecord none (some true) (some "boom")) "m" "h" (by rfl)
    (by intro r hr; simp at hr)
  simpa using h

/-- C7 counterexample: the translator adds a whitespace-token estimate for
delta text arriving after the last usage object, so the final output-token
count of a sequence whose most recent usage object says 10 is 11, not 10;
the universally quantified claim that the final counts always equal the
most recently seen usage object is false. -/
theorem c7_counterexample_delta_after_usage :
    stream_anthropic_response "id" "m"
      [messageDeltaRecord { input_tokens := some 5, output_tokens := some 10 },
       rtDeltaRecord "hi"] =
      [SSEEvent.message_start "id" "m", SSEEvent.content_block_start 0 defaultCB,
       SSEEvent.content_block_delta 0 "hi", SSEEvent.content_block_stop 0,
       SSEEvent.message_delta 11, SSEEvent.message_stop] ∧ (11 : Int) ≠ 10 := by
  exact ⟨by decide, by decide⟩

/-- C7 (amended): usage aggregation is last-write-wins, never summed, in
both components, for a usage object carrying both counts that arrives as
the final record: the translator final state and its emitted message_delta
take exactly those values, and the non-streaming aggregator returns
exactly those values, regardless of any earlier usage objects. In
particular usage (5,10) then (8,20) yields exactly (8,20). -/
theorem c7_amended_last_write_wins (mid model model2 hex : String)
    (records : List DecodedRecord) (u : UsageData) (a b : Int)
    (h1 : u.input_tokens = some a) (h2 : u.output_tokens = some b)
    (hclean : ∀ r ∈ records, r.is_error.getD false = false) :
    (runChunks initStreamState
      (records ++ [resultRecord (some u) none none])).1.input_tokens = a ∧
    (runChunks initStreamState
      (records ++ [resultRecord (some u) none none])).1.output_tokens = b ∧
    (∃ front, stream_anthropic_response mid model
      (records ++ [resultRecord (some u) none none]) =
        front ++ [SSEEvent.message_delta b, SSEEvent.message_stop]) ∧
    (∃ resp, cli_response_to_anthropic model2 hex
      (records ++ [resultRecord (some u) none none]) = Except.ok resp ∧
        resp.input_tokens = a ∧ resp.output_tokens = b) := by
  have hrun : (runChunks initStreamState
      (records ++ [resultRecord (some u) none none])).1 =
      { (runChunks initStreamState records).1 with input_tokens := a, output_tokens := b } := by
    rw [runChunks_append]
    simp [runChunks, processChunk, resultRecord, h1, h2]
  refine ⟨by rw [hrun], by rw [hrun], ?_, ?_⟩
  · refine ⟨SSEEvent.message_start mid model ::
      ((runChunks initStreamState (records ++ [resultRecord (some u) none none])).2 ++
        (if (runChunks initStreamState
            (records ++ [resultRecord (some u) none none])).1.content_started then
          [SSEEvent.content_block_stop (runChunks initStreamState
            (records ++ [resultRecord (some u) none none])).1.content_index]
        else [])), ?_⟩
    simp only [stream_anthropic_response]
    rw [hrun]
    simp
  · obtain ⟨txt, hagg⟩ := aggregateRecords_last_usage records "" 0 0 u a b h1 h2 hclean
    refine Exists.intro
      { id := "msg_" ++ hex, type_ := "message", role := "assistant",
        content_text := txt, model := model2, stop_reason := "end_turn",
        input_tokens := a, output_tokens := b } ⟨?_, rfl, rfl⟩
    simp [cli_response_to_anthropic, hagg, Except.map]

/-- C7 witness: the amended theorem applied at the concrete (5,10) then
(8,20) sequence from the specification. -/
theorem c7_amended_witness :
    (runChunks initStreamState
      ([resultRecord (some { input_tokens := some 5, output_tokens := some 10 }) none none] ++
        [resultRecord (some { input_tokens := some 8, output_tokens := some 20 })
          none none])).1.input_tokens = 8 ∧
    (runChunks initStreamState
      ([resultRecord (some { input_tokens := some 5, output_tokens := some 10 }) none none] ++
        [resultRecord (some { input_tokens := some 8, output_tokens := some 20 })
          none none])).1.output_tokens = 20 := by
  have h := c7_amended_last_write_wins "id" "m" "m" "h"
    [resultRecord (some { input_tokens := some 5, output_tokens := some 10 }) none none]
    { input_tokens := some 8, output_tokens := some 20 } 8 20 rfl rfl
    (by intro r hr; simp only [List.mem_singleton] at hr; subst hr; rfl)
  exact ⟨h.1, h.2.1⟩

/-- C5: evaluation of the streaming read loop at the failing input. The
trace delivers a second non-blank line 1000 time units after the first
while the idle window is 180; the claim (and the configuration comment in
the source) says the process is terminated and the stream ends early, but
the loop resets the idle timer on receipt before checking it, so both
records are yielded and the loop never terminates the process. -/
theorem c5_idle_window_not_enforced :
    ((1000 : Int) > 180) ∧
    streamReadLoop 180 0 0
      [(1, RawLine.parsed (rtDeltaRecord "a")), (1000, RawLine.parsed (rtDeltaRecord "b"))] =
      ([rtDeltaRecord "a", rtDeltaRecord "b"], false) := by
  exact ⟨by decide, by rfl⟩

/-- C6 counterexample: with non-zero exit, stdout that parses as JSON
without an error flag, and empty stderr, the code yields the generic
exit-code message rather than the trimmed stdout text required by the
claimed priority order. -/
theorem c6_counterexample_json_without_flag :
    nonStreamingExitFailure 2
      (StdoutData.jsonText "\x7b\"type\": \"result\", \"subtype\": \"success\"\x7d"
        (resultRecord none none (some "ok"))) "" =
      "Claude CLI failed (exit 2): Command failed with exit code 2" ∧
    pyStrip "\x7b\"type\": \"result\", \"subtype\": \"success\"\x7d" ≠ "" ∧
    "Claude CLI failed (exit 2): Command failed with exit code 2" ≠
      "Claude CLI failed (exit 2): " ++
        pyStrip "\x7b\"type\": \"result\", \"subtype\": \"success\"\x7d" := by
  refine ⟨by rfl, by decide, by decide⟩

/-- C6 (amended): on non-zero exit the failure message is chosen as
follows: the embedded result message of a JSON-parsed stdout whose error
flag is set, when that message is non-empty; else, when stdout is
non-empty and does not parse as JSON, the trimmed stdout; when the
candidate so far is empty and stderr is non-empty, the trimmed stderr;
otherwise the generic exit-code message. Stdout parsing as JSON without
the error flag contributes nothing. The Model-not-found scenario holds
exactly as claimed. -/
theorem c6_amended_exit_message_priority :
    (∀ (rc : Int) (raw : String) (rec : DecodedRecord) (stderr_msg : String),
      rec.is_error.getD false = true → rec.result.getD "Unknown CLI error" ≠ "" →
      extract_error_msg rc (StdoutData.jsonText raw rec) stderr_msg =
        rec.result.getD "Unknown CLI error") ∧
    (∀ (rc : Int) (raw stderr_msg : String), pyStrip raw ≠ "" →
      extract_error_msg rc (StdoutData.rawText raw) stderr_msg = pyStrip raw) ∧
    (∀ (rc : Int) (raw : String) (rec : DecodedRecord) (stderr_msg : String),
      rec.is_error.getD false = false → stderr_msg ≠ "" → pyStrip stderr_msg ≠ "" →
      extract_error_msg rc (StdoutData.jsonText raw rec) stderr_msg = pyStrip stderr_msg) ∧
    (∀ rc : Int, extract_error_msg rc StdoutData.empty "" =
      "Command failed with exit code " ++ toString rc) ∧
    (∃ p, nonStreamingExitFailure 1
      (StdoutData.jsonText "\x7b\"is_error\": true, \"result\": \"Model not found\"\x7d"
        (resultRecord none (some true) (some "Model not found"))) "" =
      p ++ "Model not found") := by
  refine ⟨?_, ?_, ?_, ?_, ⟨"Claude CLI failed (exit 1): ", by rfl⟩⟩
  · intro rc raw rec stderr_msg herr hne
    simp [extract_error_msg, herr, hne]
  · intro rc raw stderr_msg hraw
    simp [extract_error_msg, hraw]
  · intro rc raw rec stderr_msg herr hsd hps
    simp [extract_error_msg, herr, hsd, hps]
  · intro rc
    simp [extract_error_msg]

/-- C6 witness: the amended theorem applied at the Model-not-found record
with empty stderr. -/
theorem c6_amended_witness :
    extract_error_msg 1
      (StdoutData.jsonText "\x7b\"is_error\": true, \"result\": \"Model not found\"\x7d"
        (resultRecord none (some true) (some "Model not found"))) "" = "Model not found" := by
  have h := c6_amended_exit_message_priority.1 1
    "\x7b\"is_error\": true, \"result\": \"Model not found\"\x7d"
    (resultRecord none (some true) (some "Model not found")) "" (by rfl) (by decide)
  simpa using h

/-- C4: when file attachments are present and the configured tool
allow-list string or directory allow-list string is blank, the builder
phase of query fails with a configuration error, so the subprocess spawn
at line 169 is never reached. -/
theorem c4_config_error_before_spawn (settings : QuerySettings) (cli_path prompt : String)
    (system_prompt model : Option String) (allowed_tools disallowed_tools : Option (List String))
    (stream : Bool) (file_paths : List String)
    (hfp : file_paths ≠ [])
    (hcfg : pyStrip settings.claude_allowed_tools_str = "" ∨
      pyStrip settings.claude_allowed_directories_str = "") :
    (∃ msg, buildCommand settings cli_path prompt system_prompt model allowed_tools
      disallowed_tools stream file_paths = Except.error msg) ∧
    querySpawnsProcess settings cli_path prompt system_prompt model allowed_tools
      disallowed_tools stream file_paths = false := by
  have herr : ∃ msg, buildCommand settings cli_path prompt system_prompt model allowed_tools
      disallowed_tools stream file_paths = Except.error msg := by
    rcases hcfg with h | h
    · exact ⟨"File upload attempted but CLAUDE_ALLOWED_TOOLS_STR not configured. " ++
        "Set CLAUDE_ALLOWED_TOOLS_STR=Read in your .env file to enable file upload.",
        by simp [buildCommand, hfp, h]⟩
    · by_cases h2 : pyStrip settings.claude_allowed_tools_str = ""
      · exact ⟨"File upload attempted but CLAUDE_ALLOWED_TOOLS_STR not configured. " ++
          "Set CLAUDE_ALLOWED_TOOLS_STR=Read in your .env file to enable file upload.",
          by simp [buildCommand, hfp, h2]⟩
      · exact ⟨"File upload attempted but CLAUDE_ALLOWED_DIRECTORIES_STR not configured. " ++
          "Set CLAUDE_ALLOWED_DIRECTORIES_STR=/tmp (or your temp directory) in your .env file.",
          by simp [buildCommand, hfp, h, h2]⟩
  obtain ⟨msg, hmsg⟩ := herr
  exact ⟨⟨msg, hmsg⟩, by simp [querySpawnsProcess, hmsg]⟩

/-- C4 witness: the theorem applied at a concrete invocation with one
attachment and a blank tool allow-list. -/
theorem c4_config_error_witness :
    querySpawnsProcess
      { claude_allowed_tools_str := "  ",
        claude_allowed_directories_str := "/tmp", claude_disallowed_tools_str := "" }
      "claude" "p" none none none none false ["/tmp/f.png"] = false := by
  exact (c4_config_error_before_spawn _ "claude" "p" none none none none false
    ["/tmp/f.png"] (by decide) (Or.inl (by decide))).2

/-! ## Cleanup lemmas -/

theorem cleanupLoop_not_existing :
    ∀ (l : List String) (fs : FsState) (f : String),
      f ∉ fs.existing → f ∉ (cleanupLoop fs l).existing := by
  intro l
  induction l with
  | nil => intro fs f h; simpa [cleanupLoop] using h
  | cons g rest ih =>
    intro fs f h
    by_cases hg : g ∈ fs.failing
    · simp only [cleanupLoop, unlinkMissingOk, hg, if_pos, reduceIte]
      exact ih fs f h
    · simp only [cleanupLoop, unlinkMissingOk, hg, if_neg, reduceIte]
      exact ih _ f (fun hmem => h (List.mem_of_mem_filter hmem))

theorem cleanupLoop_failing :
    ∀ (l : List String) (fs : FsState), (cleanupLoop fs l).failing = fs.failing := by
  intro l
  induction l with
  | nil => intro fs; rfl
  | cons g rest ih =>
    intro fs
    by_cases hg : g ∈ fs.failing
    · simp only [cleanupLoop, unlinkMissingOk, hg, if_pos, reduceIte]
      exact ih fs
    · simp only [cleanupLoop, unlinkMissingOk, hg, if_neg, reduceIte]
      exact ih _

theorem cleanupLoop_deletes :
    ∀ (l : List String) (fs : FsState) (f : String),
      f ∈ l → f ∉ fs.failing → f ∉ (cleanupLoop fs l).existing := by
  intro l
  induction l with
  | nil => intro fs f h; simp at h
  | cons g rest ih =>
    intro fs f hmem hnf
    rcases List.mem_cons.mp hmem with rfl | hmem2
    · simp only [cleanupLoop, unlinkMissingOk, hnf, if_neg, reduceIte]
      apply cleanupLoop_not_existing
      simp
    · by_cases hg : g ∈ fs.failing
      · simp only [cleanupLoop, unlinkMissingOk, hg, if_pos, reduceIte]
        exact ih fs f hmem2 hnf
      · simp only [cleanupLoop, unlinkMissingOk, hg, if_neg, reduceIte]
        exact ih _ f hmem2 hnf

/-- C3: every exit path of one streaming session -- normal completion, an
upstream-iterator exception, or early close of the generator -- runs the
finally-block cleanup: every temp file whose unlink does not itself fail
is absent afterwards (files already missing are tolerated since unlink
uses missing_ok), and a failing unlink is swallowed, leaving the rest of
the loop to run and nothing re-raised to the consumer. -/
theorem c3_cleanup_on_every_exit_path (mid model : String) (records : List DecodedRecord)
    (exitPath : StreamExit) (temp_files : List String) (fs : FsState)
    (hne : temp_files ≠ []) :
    (∀ f ∈ temp_files, f ∉ fs.failing →
      f ∉ ((streamSessionRun mid model records exitPath temp_files fs).2).existing) ∧
    ((streamSessionRun mid model records exitPath temp_files fs).2).failing = fs.failing := by
  have hfs : (streamSessionRun mid model records exitPath temp_files fs).2 =
      cleanupTempFiles temp_files fs := by
    cases exitPath <;> rfl
  rw [hfs]
  unfold cleanupTempFiles
  simp only [hne, ne_eq, not_false_eq_true, if_true, reduceIte]
  exact ⟨fun f hf hnf => cleanupLoop_deletes temp_files fs f hf hnf,
    cleanupLoop_failing temp_files fs⟩

/-- C3 witness: the theorem applied at a concrete session with two temp
files, one of which fails to delete, closed early by the consumer. -/
theorem c3_cleanup_witness :
    "/tmp/a.png" ∉
      ((streamSessionRun "id" "m" [] (StreamExit.closedEarly 1) ["/tmp/a.png", "/tmp/b.png"]
        { existing := ["/tmp/a.png", "/tmp/c.png"], failing := ["/tmp/b.png"] }).2).existing := by
  exact (c3_cleanup_on_every_exit_path "id" "m" [] (StreamExit.closedEarly 1)
    ["/tmp/a.png", "/tmp/b.png"]
    { existing := ["/tmp/a.png", "/tmp/c.png"], failing := ["/tmp/b.png"] }
    (by decide)).1 "/tmp/a.png" (by decide) (by decide)

/-- C8: a real-time grammar record and a legacy grammar record carrying
the same text t produce identical translator output, and in particular
content_block_delta events with identical text: exactly one delta
carrying t when t is non-empty, none when t is empty. -/
theorem c8_grammar_equivalence (t mid model : String) :
    stream_anthropic_response mid model [rtDeltaRecord t] =
      stream_anthropic_response mid model [legacyTextRecord t] ∧
    deltaTexts (stream_anthropic_response mid model [rtDeltaRecord t]) =
      (if t = "" then [] else [t]) := by
  by_cases ht : t = ""
  · subst ht
    exact ⟨by rfl, by rfl⟩
  · have h1 : stream_anthropic_response mid model [rtDeltaRecord t] =
        [SSEEvent.message_start mid model, SSEEvent.content_block_start 0 defaultCB,
         SSEEvent.content_block_delta 0 t, SSEEvent.content_block_stop 0,
         SSEEvent.message_delta (countTokens t : Int), SSEEvent.message_stop] := by
      simp [stream_anthropic_response, runChunks, processChunk, rtDeltaRecord, emptyInnerEvent,
        ht, initStreamState]
    have h2 : stream_anthropic_response mid model [legacyTextRecord t] =
        [SSEEvent.message_start mid model, SSEEvent.content_block_start 0 defaultCB,
         SSEEvent.content_block_delta 0 t, SSEEvent.content_block_stop 0,
         SSEEvent.message_delta (countTokens t : Int), SSEEvent.message_stop] := by
      simp [stream_anthropic_response, runChunks, processChunk, legacyTextRecord, emptyMessage,
        processContent, ht, initStreamState]
    rw [h1, h2]
    simp [deltaTexts, ht]

theorem processContent_no_text :
    ∀ (blocks : List ContentItem) (st : StreamState),
      (∀ b ∈ blocks, ¬(b.type_ = some "text" ∧ b.text.getD "" ≠ "")) →
      processContent st blocks = (st, []) := by
  intro blocks
  induction blocks with
  | nil => intro st _; rfl
  | cons b rest ih =>
    intro st hno
    have hrest := ih st (fun f hf => hno f (by simp [hf]))
    by_cases h1 : b.type_ = some "text"
    · have ht : b.text.getD "" = "" := by
        by_contra hcc
        exact hno b (by simp) ⟨h1, hcc⟩
      simp [processContent, h1, ht, hrest]
    · simp [processContent, h1, hrest]

/-- C10: a real-time content_block_delta record with empty delta text, and
a legacy assistant record whose non-empty content array holds no non-empty
text block, both set the content-started flag without emitting a delta:
the output is message_start, content_block_start, content_block_stop,
message_delta, message_stop with no content_block_delta event. -/
theorem c10_block_opened_without_delta (mid model : String) (content : List ContentItem)
    (hne : content ≠ [])
    (hno : ∀ b ∈ content, ¬(b.type_ = some "text" ∧ b.text.getD "" ≠ "")) :
    stream_anthropic_response mid model [rtDeltaRecord ""] =
      [SSEEvent.message_start mid model, SSEEvent.content_block_start 0 defaultCB,
       SSEEvent.content_block_stop 0, SSEEvent.message_delta 0, SSEEvent.message_stop] ∧
    stream_anthropic_response mid model [assistantRecord content] =
      [SSEEvent.message_start mid model, SSEEvent.content_block_start 0 defaultCB,
       SSEEvent.content_block_stop 0, SSEEvent.message_delta 0, SSEEvent.message_stop] := by
  constructor
  · rfl
  · have hie : content.isEmpty = false := by
      cases content with
      | nil => exact absurd rfl hne
      | cons x xs => rfl
    have hpc : ∀ st : StreamState, processContent st content = (st, []) :=
      fun st => processContent_no_text content st hno
    simp [stream_anthropic_response, runChunks, processChunk, assistantRecord, emptyMessage,
      hie, hpc, initStreamState]

/-- C10 witness: the theorem applied at the concrete one-element content
array holding an empty text block. -/
theorem c10_block_opened_witness :
    stream_anthropic_response "id" "m"
      [assistantRecord [{ type_ := some "text", text := some "" }]] =
      [SSEEvent.message_start "id" "m", SSEEvent.content_block_start 0 defaultCB,
       SSEEvent.content_block_stop 0, SSEEvent.message_delta 0, SSEEvent.message_stop] := by
  exact (c10_block_opened_without_delta "id" "m" [{ type_ := some "text", text := some "" }]
    (by decide) (by decide)).2

/-- C1 witness: the ordering theorem applied at a concrete one-delta
session, discharging the split hypotheses of both precedence conjuncts at
concrete decompositions. -/
theorem c1_sse_event_ordering_witness :
    1 ≤ List.countP isContentBlockStart
      [SSEEvent.message_start "id" "m", SSEEvent.content_block_start 0 defaultCB] ∧
    List.countP isContentBlockDelta
      [SSEEvent.message_delta 1, SSEEvent.message_stop] = 0 := by
  have h := c1_sse_event_ordering "id" "m" [rtDeltaRecord "hi"]
  constructor
  · exact h.2.2.2.1
      [SSEEvent.message_start "id" "m", SSEEvent.content_block_start 0 defaultCB]
      (SSEEvent.content_block_delta 0 "hi")
      [SSEEvent.content_block_stop 0, SSEEvent.message_delta 1, SSEEvent.message_stop]
      (by decide) (by rfl)
  · exact h.2.2.2.2.1
      [SSEEvent.message_start "id" "m", SSEEvent.content_block_start 0 defaultCB,
       SSEEvent.content_block_delta 0 "hi"]
      (SSEEvent.content_block_stop 0)
      [SSEEvent.message_delta 1, SSEEvent.message_stop]
      (by decide) (by rfl)

end ClaudeBridge
